import Mathlib

/-!
Shallow embedding of the reconciliation engine of the image-registry cluster
operator (pkg/operator/controller.go): the event funnel (resource event
handlers), the serialized sync loop, failure classification (permanent vs
transient), the minimal-write update protocol, and the workqueue consumer.

External collaborators (the resource generator, the listers/caches, the remote
object store, the status computation) are modelled as oracle functions bundled
in a `World`; the engine code itself is translated statement by statement from
the source. Calls with cluster-visible side effects are recorded in an event
trace so that claims about which calls a pass performs are statable.
-/

namespace ImageRegistryOperator

/-- The fixed sentinel key posted to the workqueue (`workqueueKey = "changes"`). -/
def workqueueKey : String := "changes"

/-- Modelled from the spec: the name restriction applied to cluster-operator
status-mirror notifications (`defaults.ImageRegistryClusterOperatorResourceName`,
whose definition is not under src/). The concrete value is opaque to the engine. -/
def clusterOperatorResourceName : String := "image-registry"

/-- Modelled from the spec: the controller finalizer token appended by
`appendFinalizer` (defined outside src/). The engine treats it as opaque. -/
def imageRegistryOperatorFinalizer : String := "imageregistry.operator.openshift.io/finalizer"

/-- Go `error` values the engine distinguishes: the `permanentError` wrapper with
its named reason (controller.go:50), the `storage.ErrStorageNotConfigured`
sentinel, api errors recognized by `errors.IsNotFound` / `errors.IsConflict`,
and any other error carrying only a message (`fmt.Errorf`). -/
inductive GoError
  | generic (msg : String)
  | notFound
  | conflict
  | storageNotConfigured
  | permanent (reason : String) (err : GoError)
deriving DecidableEq, Repr

/-- `errors.IsNotFound` on the embedded error values. -/
def GoError.isNotFound : GoError → Bool
  | GoError.notFound => true
  | _ => false

/-- `errors.IsConflict` on the embedded error values. -/
def GoError.isConflict : GoError → Bool
  | GoError.conflict => true
  | _ => false

/-- The type assertion `applyError.(permanentError)` (controller.go:197). -/
def GoError.isPermanent : GoError → Bool
  | GoError.permanent _ _ => true
  | _ => false

/-- `err.Error()`: the message of an error; `permanentError.Error()` delegates to
the wrapped error (controller.go:62). -/
def errorMessage : GoError → String
  | GoError.generic m => m
  | GoError.notFound => "not found"
  | GoError.conflict => "conflict"
  | GoError.storageNotConfigured => "storage is not configured"
  | GoError.permanent _ e => errorMessage e

/-- `operatorapi.ManagementState` with its three recognized values and the
catch-all for an unrecognized string (the `default` branch of the dispatch). -/
inductive ManagementState
  | Managed
  | Removed
  | Unmanaged
  | Other (s : String)
deriving DecidableEq, Repr

/-- The object metadata fields the engine reads or writes: the deletion marker,
the finalizer list, the generation counter and the resource version. All other
metadata is abstracted into one opaque field so that structural (in)equality of
the rest remains expressible. -/
structure ObjectMeta where
  name : String
  ns : String
  deletionTimestamp : Option Nat
  finalizers : List String
  generation : Int
  resourceVersion : String
  restOfMeta : Nat
deriving DecidableEq, Repr

/-- The spec of the desired-state object: the management state plus an opaque
abstraction of every other spec field. -/
structure ConfigSpec where
  managementState : ManagementState
  restOfSpec : Nat
deriving DecidableEq, Repr

/-- The status of the desired-state object: `observedGeneration` (written by the
engine at controller.go:177) plus an opaque abstraction of the other fields
written by the status computation. -/
structure ConfigStatus where
  observedGeneration : Int
  restOfStatus : Nat
deriving DecidableEq, Repr

/-- `imageregistryv1.Config`, the desired-state object. -/
structure Config where
  metadata : ObjectMeta
  spec : ConfigSpec
  status : ConfigStatus
deriving DecidableEq, Repr

/-- The dependent deployment read from the cache: opaque to the engine, only
passed into the status computation. -/
structure Deployment where
  deployData : Nat
deriving DecidableEq, Repr

/-! ## Event funnel (resource event handlers) -/

/-- The identity-bearing view of a notified object that `kmeta.Accessor` /
`metaapi.Object` expose: name, namespace, resource version, and whether the
dynamic type is `*configapiv1.ClusterOperator` (for the checked type assertion
in the handlers). -/
structure KObj where
  name : String
  ns : String
  resourceVersion : String
  isClusterOperator : Bool
deriving DecidableEq, Repr

/-- Outcome of one handler invocation: the sentinel trigger was enqueued, the
notification was discarded (with at most a log line), or the handler hit a
failing unchecked type assertion (a run-time panic in Go). -/
inductive HandlerOutcome
  | enqueued
  | discarded
  | panicked
deriving DecidableEq, Repr

/-- A delete notification as delivered to `DeleteFunc`: a direct object
(implements `metaapi.Object`), a `cache.DeletedFinalStateUnknown` tombstone
whose inner object is or is not a `metaapi.Object`, or a value of some other
type entirely. The tombstone struct itself does not implement `metaapi.Object`. -/
inductive DeleteInput
  | direct (obj : KObj)
  | tombstoneValid (obj : KObj)
  | tombstoneInvalid
  | invalidType
deriving DecidableEq, Repr

/-- `DeleteFunc` of `Controller.handler` (controller.go:275), statement by
statement: the checked assertion `o.(metaapi.Object)`; on failure the checked
tombstone unwrap (log and return when either assertion fails); then the checked
`*ClusterOperator` name filter on `o`; then the UNCHECKED assertion
`obj := o.(metaapi.Object)` at controller.go:295 — which panics whenever `o` is
a tombstone, because the tombstone struct does not implement `metaapi.Object`;
then the kube-system allow-list filter; then enqueue. -/
def deleteFuncBody (o : DeleteInput) : HandlerOutcome :=
  match o with
  | DeleteInput.invalidType => HandlerOutcome.discarded
  | DeleteInput.tombstoneInvalid => HandlerOutcome.discarded
  | DeleteInput.tombstoneValid _ => HandlerOutcome.panicked
  | DeleteInput.direct obj =>
      if obj.isClusterOperator && (obj.name != clusterOperatorResourceName) then
        HandlerOutcome.discarded
      else if obj.ns == "kube-system" && (obj.name != "cluster-config-v1") then
        HandlerOutcome.discarded
      else
        HandlerOutcome.enqueued

/-- An object handed to `UpdateFunc`: either `kmeta.Accessor` succeeds on it and
yields an identity view, or it fails. -/
inductive NotifObj
  | valid (obj : KObj)
  | noAccessor
deriving DecidableEq, Repr

/-- `UpdateFunc` of `Controller.handler` (controller.go:247): accessor for the
new then the old object (log and return on failure); discard when the resource
versions are equal (resync echo); then the `*ClusterOperator` name filter on the
old object; then the kube-system allow-list filter; then enqueue. -/
def updateFuncBody (o n : NotifObj) : HandlerOutcome :=
  match n with
  | NotifObj.noAccessor => HandlerOutcome.discarded
  | NotifObj.valid nObj =>
      match o with
      | NotifObj.noAccessor => HandlerOutcome.discarded
      | NotifObj.valid oObj =>
          if nObj.resourceVersion == oObj.resourceVersion then
            HandlerOutcome.discarded
          else if oObj.isClusterOperator && (oObj.name != clusterOperatorResourceName) then
            HandlerOutcome.discarded
          else if oObj.ns == "kube-system" && (oObj.name != "cluster-config-v1") then
            HandlerOutcome.discarded
          else
            HandlerOutcome.enqueued

/-! ## The sync loop -/

/-- One cluster-visible call performed during a sync pass, recorded in order.
`verifyCall`, `applyCall`, `removeCall`, `finalizeCall`, `bootstrapCall` are the
collaborator invocations; `deployGetCall` the cache read of the dependent
deployment; `statusCompute` the in-place status computation; `updateCall` /
`updateStatusCall` the two conditional remote writes (each carries the object
passed to the call); the `log...` events the `klog.Errorf` lines guarding them. -/
inductive Event
  | bootstrapCall
  | finalizeCall (cr : Config)
  | verifyCall (cr : Config)
  | applyCall (cr : Config)
  | removeCall (cr : Config)
  | warnUnknownState (s : String)
  | deployGetCall
  | statusCompute (cr : Config)
  | updateCall (cr : Config)
  | logUpdateError
  | updateStatusCall (cr : Config)
  | logStatusUpdateError
deriving DecidableEq, Repr

/-- The environment of one sync pass: the outcome of every collaborator the
engine consults. `getConfig` is the lister read of the desired-state object;
`verify` the spec validation; `applyRes` / `removeRes` / `finalizeRes` the
resource generator steps (per the external contract they return only an error);
`bootstrapRes` the bootstrap outcome; `getDeploy` the lister read of the
deployment; `newStatus` the status computation (it writes only status fields,
from the working copy, the deployment snapshot and the apply error);
`updateRes` the conditional whole-object update, returning the fresh resource
version on success; `updateStatusRes` the conditional status-only update. -/
structure World where
  getConfig : Except GoError Config
  verify : Config → Option GoError
  applyRes : Config → Option GoError
  removeRes : Config → Option GoError
  finalizeRes : Config → Option GoError
  bootstrapRes : Option GoError
  getDeploy : Except GoError Deployment
  newStatus : Config → Option Deployment → Option GoError → ConfigStatus
  updateRes : Config → Except GoError String
  updateStatusRes : Config → Option GoError

/-- Modelled from the spec: `appendFinalizer` (defined outside src/) ensures the
controller finalizer token is present in the finalizer set — appended when
absent, a no-op when already present. -/
def appendFinalizer (m : ObjectMeta) : ObjectMeta :=
  if imageRegistryOperatorFinalizer ∈ m.finalizers then m
  else { m with finalizers := m.finalizers ++ [imageRegistryOperatorFinalizer] }

/-- The working copy after the in-place `appendFinalizer(cr)` mutation at the
top of `createOrUpdateResources` (controller.go:97). -/
def withFinalizer (cr : Config) : Config :=
  { cr with metadata := appendFinalizer cr.metadata }

/-- `Controller.createOrUpdateResources` (controller.go:96): append the
finalizer, validate (`verifyResource`); a validation failure is wrapped as
`permanentError` with reason `VerificationFailed` around
`fmt.Errorf("unable to complete resource: %s", err)` and the generator is not
invoked; otherwise invoke `generator.Apply`; the `storage.ErrStorageNotConfigured`
sentinel is wrapped as `permanentError` with reason `StorageNotConfigured`; any
other non-nil apply error is returned unchanged. Returns the recorded calls, the
(possibly finalizer-extended) working copy, and the error. -/
def createOrUpdateResources (verify applyStep : Config → Option GoError) (cr : Config) :
    List Event × Config × Option GoError :=
  match verify (withFinalizer cr) with
  | some e =>
      ([Event.verifyCall (withFinalizer cr)], withFinalizer cr,
        some (GoError.permanent "VerificationFailed"
          (GoError.generic ("unable to complete resource: " ++ errorMessage e))))
  | none =>
      match applyStep (withFinalizer cr) with
      | some e =>
          if e = GoError.storageNotConfigured then
            ([Event.verifyCall (withFinalizer cr), Event.applyCall (withFinalizer cr)],
              withFinalizer cr, some (GoError.permanent "StorageNotConfigured" e))
          else
            ([Event.verifyCall (withFinalizer cr), Event.applyCall (withFinalizer cr)],
              withFinalizer cr, some e)
      | none =>
          ([Event.verifyCall (withFinalizer cr), Event.applyCall (withFinalizer cr)],
            withFinalizer cr, none)

/-- The management-state dispatch of `Controller.sync` (controller.go:131):
Removed runs the generator teardown, Managed runs `createOrUpdateResources`,
Unmanaged is ignored, an unrecognized value only logs a warning. Returns the
recorded calls, the working copy after the branch, and `applyError`. -/
def dispatch (w : World) (cr : Config) : List Event × Config × Option GoError :=
  match cr.spec.managementState with
  | ManagementState.Removed => ([Event.removeCall cr], cr, w.removeRes cr)
  | ManagementState.Managed => createOrUpdateResources w.verify w.applyRes cr
  | ManagementState.Unmanaged => ([], cr, none)
  | ManagementState.Other s => ([Event.warnUnknownState s], cr, none)

/-- The deployment read of `Controller.sync` (controller.go:142): a not-found
error yields a nil deployment, any other error aborts the pass with a wrapped
message, otherwise the (deep-copied) deployment is used. -/
def deployLookup (w : World) : Except GoError (Option Deployment) :=
  match w.getDeploy with
  | Except.error e =>
      if e.isNotFound then Except.ok none
      else Except.error (GoError.generic
        ("failed to get \"image-registry\" deployment: " ++ errorMessage e))
  | Except.ok dep => Except.ok (some dep)

/-- Modelled from the spec: `strategy.Metadata` (defined outside src/) decides
whether the metadata changed, using structural value equality of the before and
after metadata, not reference equality. -/
def strategyMetadata (prev cur : ObjectMeta) : Bool :=
  decide (prev ≠ cur)

/-- The assignment `cr.Status.ObservedGeneration = cr.Generation`
(controller.go:177). -/
def setObservedGeneration (cr : Config) : Config :=
  { cr with status := { cr.status with observedGeneration := cr.metadata.generation } }

/-- Steps 177–195 of `Controller.sync`: set `observedGeneration` from the
current generation, then if the status differs from the pre-pass status
(`reflect.DeepEqual`), issue the status-only conditional update; a conflict is
not logged, any other failure is logged; either failure aborts the pass with
that error. Returns the recorded calls, the error, and — when the end of the
function is reached — the final working copy. -/
def statusPersist (w : World) (prevCR cr3 : Config) :
    List Event × Option GoError × Option Config :=
  if prevCR.status ≠ (setObservedGeneration cr3).status then
    match w.updateStatusRes (setObservedGeneration cr3) with
    | some e =>
        if e.isConflict then
          ([Event.updateStatusCall (setObservedGeneration cr3)], some e, none)
        else
          ([Event.updateStatusCall (setObservedGeneration cr3), Event.logStatusUpdateError],
            some e, none)
    | none =>
        ([Event.updateStatusCall (setObservedGeneration cr3)], none,
          some (setObservedGeneration cr3))
  else
    ([], none, some (setObservedGeneration cr3))

/-- Steps 153–195 of `Controller.sync`: compare the metadata group (via the
strategy) and the spec group (`reflect.DeepEqual`) against the pre-pass copy;
when either differs, issue one conditional update for the whole object — a
conflict is not logged, any other failure is logged, either aborts the pass
with that error — and on success replace the working copy's resource version
with the fresh one returned by the store; then run the status phase. -/
def specPersist (w : World) (prevCR cr2 : Config) :
    List Event × Option GoError × Option Config :=
  if strategyMetadata prevCR.metadata cr2.metadata || decide (prevCR.spec ≠ cr2.spec) then
    match w.updateRes cr2 with
    | Except.error e =>
        if e.isConflict then
          ([Event.updateCall cr2], some e, none)
        else
          ([Event.updateCall cr2, Event.logUpdateError], some e, none)
    | Except.ok rv =>
        let r := statusPersist w prevCR
          { cr2 with metadata := { cr2.metadata with resourceVersion := rv } }
        (Event.updateCall cr2 :: r.1, r.2)
  else
    statusPersist w prevCR cr2

/-- The final check of `Controller.sync` (controller.go:197): a `permanentError`
apply error is swallowed (the pass returns nil), anything else — including nil —
is returned as is. -/
def swallowPermanent : Option GoError → Option GoError
  | some e => if e.isPermanent then none else some e
  | none => none

/-- Result of one sync pass: the ordered calls, the final working copy when the
end of `sync` was reached (none when the pass ended early in the bootstrap,
deletion, read-error or write-error branches), and the returned error. -/
structure SyncResult where
  trace : List Event
  finalCR : Option Config
  err : Option GoError
deriving DecidableEq, Repr

/-- The working copy after the status computation (controller.go:151): the
dispatch result with its status replaced by the computed one. -/
def cfgAfterStatus (w : World) (cr0 : Config) (deploy : Option Deployment) : Config :=
  { (dispatch w cr0).2.1 with
      status := w.newStatus (dispatch w cr0).2.1 deploy (dispatch w cr0).2.2 }

/-- The tail of `Controller.sync` after the deployment read succeeded: status
computation, both persistence phases, and the final permanent-failure swallow. -/
def syncTail (w : World) (cr0 : Config) (deploy : Option Deployment) : SyncResult :=
  match (specPersist w cr0 (cfgAfterStatus w cr0 deploy)).2.2 with
  | none =>
      ⟨(dispatch w cr0).1 ++ [Event.deployGetCall, Event.statusCompute (cfgAfterStatus w cr0 deploy)]
          ++ (specPersist w cr0 (cfgAfterStatus w cr0 deploy)).1,
        none, (specPersist w cr0 (cfgAfterStatus w cr0 deploy)).2.1⟩
  | some cr4 =>
      ⟨(dispatch w cr0).1 ++ [Event.deployGetCall, Event.statusCompute (cfgAfterStatus w cr0 deploy)]
          ++ (specPersist w cr0 (cfgAfterStatus w cr0 deploy)).1,
        some cr4, swallowPermanent (dispatch w cr0).2.2⟩

/-- `Controller.sync` (controller.go:114): fetch the desired-state object from
the cache — not-found runs Bootstrap, any other read failure aborts with a
wrapped message; deep-copy working and pre-pass copies; if the deletion marker
is set, run finalization and return its error directly; otherwise dispatch on
the management state, read the deployment, compute status, persist the two diff
groups, and finally swallow a permanent apply error. -/
def sync (w : World) : SyncResult :=
  match w.getConfig with
  | Except.error e =>
      if e.isNotFound then ⟨[Event.bootstrapCall], none, w.bootstrapRes⟩
      else
        ⟨[], none, some (GoError.generic
          ("failed to get \"cluster\" registry operator resource: " ++ errorMessage e))⟩
  | Except.ok cr0 =>
      if cr0.metadata.deletionTimestamp.isSome then
        ⟨[Event.finalizeCall cr0], none, w.finalizeRes cr0⟩
      else
        match deployLookup w with
        | Except.error e => ⟨(dispatch w cr0).1 ++ [Event.deployGetCall], none, some e⟩
        | Except.ok deploy => syncTail w cr0 deploy

/-! ## The workqueue consumer -/

/-- A workqueue operation performed by the consumer for one popped item. -/
inductive QueueOp
  | addRateLimited
  | forget
  | done
deriving DecidableEq, Repr

/-- A popped workqueue item: a string (normally the sentinel key) or a value of
an unexpected type. -/
inductive WorkItem
  | strItem (s : String)
  | otherItem
deriving DecidableEq, Repr

/-- The body of one iteration of `Controller.eventProcessor` (controller.go:212)
applied to the popped item and the result of `sync`: a non-string item is
forgotten; a sync error re-enqueues the sentinel key rate-limited; a nil result
forgets the item; the deferred `Done` always runs last. -/
def processOne (obj : WorkItem) (syncResult : Option GoError) : List QueueOp :=
  match obj with
  | WorkItem.otherItem => [QueueOp.forget, QueueOp.done]
  | WorkItem.strItem _ =>
      match syncResult with
      | some _ => [QueueOp.addRateLimited, QueueOp.done]
      | none => [QueueOp.forget, QueueOp.done]

/-- Recognizer for the whole-object conditional update call in a trace. -/
def isUpdateCallEv : Event → Bool
  | Event.updateCall _ => true
  | _ => false

/-- A concrete desired-state object used to instantiate theorems: name
`cluster`, cluster-scoped, generation 1, with the given management state,
deletion timestamp, finalizer list and observed generation. -/
def sampleConfig (ms : ManagementState) (dt : Option Nat) (fin : List String) (obsGen : Int) :
    Config :=
  ⟨⟨"cluster", "", dt, fin, 1, "42", 0⟩, ⟨ms, 0⟩, ⟨obsGen, 0⟩⟩

/-- A concrete pass environment around a cached object `cfg`: every collaborator
succeeds, the status computation keeps the current status, the deployment is
absent (not found), and a successful update returns resource version `43`. -/
def idWorld (cfg : Config) : World :=
  ⟨Except.ok cfg, fun _ => none, fun _ => none, fun _ => none, fun _ => none, none,
    Except.error GoError.notFound, fun c _ _ => c.status,
    fun _ => Except.ok "43", fun _ => none⟩

/-! ## Helper lemmas -/

theorem mem_appendFinalizer (m : ObjectMeta) :
    imageRegistryOperatorFinalizer ∈ (appendFinalizer m).finalizers := by
  unfold appendFinalizer
  split
  · assumption
  · simp

theorem dispatch_cfg_managed (w : World) (cr : Config)
    (h : cr.spec.managementState = ManagementState.Managed) :
    (dispatch w cr).2.1 = withFinalizer cr := by
  unfold dispatch createOrUpdateResources
  rw [h]
  cases hv : w.verify (withFinalizer cr) <;> simp only
  cases ha : w.applyRes (withFinalizer cr) <;> simp only
  split <;> rfl

/-- The management-state dispatch performs no write, status-computation or
write-logging call: its trace holds only verify/apply/remove/warn events. -/
theorem dispatch_trace_free (w : World) (cr : Config) :
    (∀ c, Event.updateCall c ∉ (dispatch w cr).1) ∧
    (∀ c, Event.updateStatusCall c ∉ (dispatch w cr).1) ∧
    (∀ c, Event.statusCompute c ∉ (dispatch w cr).1) ∧
    Event.logUpdateError ∉ (dispatch w cr).1 ∧
    (dispatch w cr).1.filter isUpdateCallEv = [] := by
  cases hms : cr.spec.managementState <;>
      simp only [dispatch, createOrUpdateResources, hms]
  case Managed =>
    cases hv : w.verify (withFinalizer cr)
    case none =>
      cases ha : w.applyRes (withFinalizer cr)
      case none => simp [isUpdateCallEv]
      case some e =>
        by_cases hs : e = GoError.storageNotConfigured <;> simp [hs, isUpdateCallEv]
    case some e => simp [isUpdateCallEv]
  all_goals simp [isUpdateCallEv]

/-- Exhaustive description of the status persistence phase: either the status
group is unchanged and no call is made, or one status-update call is issued,
which succeeds, fails with a conflict (not logged) or fails otherwise (logged). -/
theorem statusPersist_cases (w : World) (prev cr3 : Config) :
    (prev.status = (setObservedGeneration cr3).status ∧
      statusPersist w prev cr3 = ([], none, some (setObservedGeneration cr3))) ∨
    (prev.status ≠ (setObservedGeneration cr3).status ∧
      ((w.updateStatusRes (setObservedGeneration cr3) = none ∧
        statusPersist w prev cr3 =
          ([Event.updateStatusCall (setObservedGeneration cr3)], none,
            some (setObservedGeneration cr3))) ∨
      (∃ e, w.updateStatusRes (setObservedGeneration cr3) = some e ∧
        statusPersist w prev cr3 =
          (Event.updateStatusCall (setObservedGeneration cr3) ::
            (if e.isConflict then [] else [Event.logStatusUpdateError]), some e, none)))) := by
  by_cases hne : prev.status = (setObservedGeneration cr3).status
  · exact Or.inl ⟨hne, by simp [statusPersist, hne]⟩
  · refine Or.inr ⟨hne, ?_⟩
    rcases hs : w.updateStatusRes (setObservedGeneration cr3) with _ | e
    · exact Or.inl ⟨rfl, by simp [statusPersist, hne, hs]⟩
    · refine Or.inr ⟨e, rfl, ?_⟩
      by_cases hc : e.isConflict = true <;> simp [statusPersist, hne, hs, hc]

/-- Exhaustive description of the metadata/spec persistence phase: either the
group is unchanged and control falls through to the status phase, or one
whole-object update call is issued; on failure the pass aborts (conflict not
logged, otherwise logged), on success the fresh resource version replaces the
one in the working copy before the status phase. -/
theorem specPersist_cases (w : World) (prev cr2 : Config) :
    ((strategyMetadata prev.metadata cr2.metadata || decide (prev.spec ≠ cr2.spec)) = false ∧
      specPersist w prev cr2 = statusPersist w prev cr2) ∨
    ((strategyMetadata prev.metadata cr2.metadata || decide (prev.spec ≠ cr2.spec)) = true ∧
      ((∃ e, w.updateRes cr2 = Except.error e ∧
        specPersist w prev cr2 =
          (Event.updateCall cr2 :: (if e.isConflict then [] else [Event.logUpdateError]),
            some e, none)) ∨
      (∃ rv, w.updateRes cr2 = Except.ok rv ∧
        specPersist w prev cr2 =
          (Event.updateCall cr2 ::
              (statusPersist w prev
                { cr2 with metadata := { cr2.metadata with resourceVersion := rv } }).1,
            (statusPersist w prev
                { cr2 with metadata := { cr2.metadata with resourceVersion := rv } }).2)))) := by
  by_cases hd : (strategyMetadata prev.metadata cr2.metadata || decide (prev.spec ≠ cr2.spec)) = true
  · refine Or.inr ⟨hd, ?_⟩
    rcases hu : w.updateRes cr2 with e | rv
    · refine Or.inl ⟨e, rfl, ?_⟩
      by_cases hc : e.isConflict = true <;>
        simp [specPersist, hd, hu, hc] <;>
        (intro h1 h2; simp [h1, h2] at hd)
    · refine Or.inr ⟨rv, rfl, ?_⟩
      simp [specPersist, hd, hu]
      intro h1 h2
      simp [h1, h2] at hd
  · refine Or.inl ⟨by simpa using hd, ?_⟩
    unfold specPersist
    rw [if_neg hd]

/-- Under a successful fetch of a non-deleting object and a successful (or
not-found) deployment read, `sync` runs the tail of the pass. -/
theorem sync_eq_syncTail (w : World) (cr0 : Config) (deploy : Option Deployment)
    (hget : w.getConfig = Except.ok cr0)
    (hdel : cr0.metadata.deletionTimestamp = none)
    (hdep : deployLookup w = Except.ok deploy) :
    sync w = syncTail w cr0 deploy := by
  unfold sync
  rw [hget]
  simp [hdel, hdep]

/-- The tail of a pass always produces the same trace shape; its error is the
persist error when the persist phases aborted and the swallowed apply error
otherwise, and its final object is the one the status phase ended on. -/
theorem syncTail_eq (w : World) (cr0 : Config) (deploy : Option Deployment) :
    syncTail w cr0 deploy =
      ⟨(dispatch w cr0).1 ++
          [Event.deployGetCall, Event.statusCompute (cfgAfterStatus w cr0 deploy)] ++
          (specPersist w cr0 (cfgAfterStatus w cr0 deploy)).1,
        (specPersist w cr0 (cfgAfterStatus w cr0 deploy)).2.2,
        match (specPersist w cr0 (cfgAfterStatus w cr0 deploy)).2.2 with
        | none => (specPersist w cr0 (cfgAfterStatus w cr0 deploy)).2.1
        | some _ => swallowPermanent (dispatch w cr0).2.2⟩ := by
  unfold syncTail
  cases (specPersist w cr0 (cfgAfterStatus w cr0 deploy)).2.2 <;> rfl

theorem updateCall_notmem_statusPersist (w : World) (prev cr3 c : Config) :
    Event.updateCall c ∉ (statusPersist w prev cr3).1 := by
  rcases statusPersist_cases w prev cr3 with ⟨_, h⟩ | ⟨_, ⟨_, h⟩ | ⟨e, _, h⟩⟩ <;> rw [h]
  · simp
  · simp
  · by_cases hc : e.isConflict = true <;> simp [hc]

theorem statusPersist_filter_update (w : World) (prev cr3 : Config) :
    (statusPersist w prev cr3).1.filter isUpdateCallEv = [] := by
  rcases statusPersist_cases w prev cr3 with ⟨_, h⟩ | ⟨_, ⟨_, h⟩ | ⟨e, _, h⟩⟩ <;> rw [h]
  · simp
  · simp [isUpdateCallEv]
  · by_cases hc : e.isConflict = true <;> simp [hc, isUpdateCallEv]

theorem updateStatusCall_mem_statusPersist (w : World) (prev cr3 c : Config)
    (h : Event.updateStatusCall c ∈ (statusPersist w prev cr3).1) :
    c = setObservedGeneration cr3 := by
  rcases statusPersist_cases w prev cr3 with ⟨_, hs⟩ | ⟨_, ⟨_, hs⟩ | ⟨e, _, hs⟩⟩ <;> rw [hs] at h
  · simp at h
  · simpa using h
  · rcases List.mem_cons.mp h with h | h
    · exact Event.updateStatusCall.inj h
    · by_cases hc : e.isConflict = true <;> simp [hc] at h

theorem updateCall_mem_specPersist (w : World) (prev cr2 c : Config)
    (h : Event.updateCall c ∈ (specPersist w prev cr2).1) : c = cr2 := by
  rcases specPersist_cases w prev cr2 with ⟨_, hs⟩ | ⟨_, ⟨e, _, hs⟩ | ⟨rv, _, hs⟩⟩ <;> rw [hs] at h
  · exact absurd h (updateCall_notmem_statusPersist w prev cr2 c)
  · rcases List.mem_cons.mp h with h | h
    · exact Event.updateCall.inj h
    · by_cases hc : e.isConflict = true <;> simp [hc] at h
  · rcases List.mem_cons.mp h with h | h
    · exact Event.updateCall.inj h
    · exact absurd h (updateCall_notmem_statusPersist w prev _ c)

/-- When the status phase reaches the end of the pass, the final object carries
`observedGeneration = generation`, and its status was either written by the
status-update call or already equal to the pre-pass status. -/
theorem statusPersist_final (w : World) (prev cr3 c : Config)
    (h : (statusPersist w prev cr3).2.2 = some c) :
    c = setObservedGeneration cr3 ∧
    (Event.updateStatusCall c ∈ (statusPersist w prev cr3).1 ∨ prev.status = c.status) := by
  rcases statusPersist_cases w prev cr3 with ⟨hp, hs⟩ | ⟨_, ⟨_, hs⟩ | ⟨e, _, hs⟩⟩ <;> rw [hs] at h
  · simp only [Option.some.injEq] at h
    refine ⟨h.symm, Or.inr ?_⟩
    rw [← h]
    exact hp
  · simp only [Option.some.injEq] at h
    exact ⟨h.symm, Or.inl (by rw [hs, ← h]; simp)⟩
  · simp at h

/-- As `statusPersist_final`, lifted over the metadata/spec phase. -/
theorem specPersist_final (w : World) (prev cr2 c : Config)
    (h : (specPersist w prev cr2).2.2 = some c) :
    c.status.observedGeneration = c.metadata.generation ∧
    (Event.updateStatusCall c ∈ (specPersist w prev cr2).1 ∨ prev.status = c.status) := by
  rcases specPersist_cases w prev cr2 with ⟨_, hs⟩ | ⟨_, ⟨e, _, hs⟩ | ⟨rv, _, hs⟩⟩ <;> rw [hs] at h ⊢
  · obtain ⟨hc, hmem⟩ := statusPersist_final w prev cr2 c h
    exact ⟨by rw [hc]; rfl, hmem⟩
  · simp at h
  · obtain ⟨hc, hmem⟩ := statusPersist_final w prev _ c h
    refine ⟨by rw [hc]; rfl, ?_⟩
    rcases hmem with hm | hm
    · exact Or.inl (List.mem_cons.mpr (Or.inr hm))
    · exact Or.inr hm

/-- When every conditional update succeeds and every status update succeeds,
the persistence phases reach the end of the pass. -/
theorem specPersist_completes (w : World) (prev cr2 : Config)
    (hupd : ∀ c, ∃ rv, w.updateRes c = Except.ok rv)
    (hst : ∀ c, w.updateStatusRes c = none) :
    ∃ c, (specPersist w prev cr2).2.2 = some c := by
  have hstat : ∀ cr3, ∃ c, (statusPersist w prev cr3).2.2 = some c := by
    intro cr3
    rcases statusPersist_cases w prev cr3 with ⟨_, h⟩ | ⟨_, ⟨_, h⟩ | ⟨e, he, h⟩⟩
    · exact ⟨_, by rw [h]⟩
    · exact ⟨_, by rw [h]⟩
    · rw [hst _] at he
      cases he
  rcases specPersist_cases w prev cr2 with ⟨_, h⟩ | ⟨_, ⟨e, he, h⟩ | ⟨rv, _, h⟩⟩
  · rw [h]
    exact hstat cr2
  · obtain ⟨rv, hrv⟩ := hupd cr2
    rw [hrv] at he
    cases he
  · rw [h]
    exact hstat _

/-! ## Claims -/

/-- C2: the claim states that the delete handler terminates normally on every
delete notification, including one wrapped as a tombstone. The code violates
this: for a tombstone whose inner object is valid, the unwrap at
controller.go:278–288 succeeds, but the unchecked type assertion
`obj := o.(metaapi.Object)` at controller.go:295 is then evaluated on the
tombstone value itself, which does not implement `metaapi.Object`, so the
handler panics instead of enqueuing or discarding. This theorem evaluates the
handler at such a failing input. -/
theorem deleteFunc_tombstone_panics :
    deleteFuncBody (DeleteInput.tombstoneValid
      ⟨"image-registry", "openshift-image-registry", "7", false⟩) =
      HandlerOutcome.panicked := by
  rfl

/-- C5: an update notification whose old and new objects carry equal resource
versions is discarded by the update handler — no trigger is enqueued — no
matter the object's name, namespace or kind: the resource-version check at
controller.go:258 runs before the name and namespace filters. -/
theorem updateFunc_equal_rv_discards (oObj nObj : KObj)
    (h : nObj.resourceVersion = oObj.resourceVersion) :
    updateFuncBody (NotifObj.valid oObj) (NotifObj.valid nObj) = HandlerOutcome.discarded := by
  simp [updateFuncBody, h]

/-- Witness for C5 at a concrete input: a cluster-operator object in the
kube-system namespace (both later filters would also fire, but the echo check
already discards). -/
theorem updateFunc_equal_rv_discards_witness :
    updateFuncBody (NotifObj.valid ⟨"foo", "kube-system", "5", true⟩)
      (NotifObj.valid ⟨"foo", "kube-system", "5", true⟩) = HandlerOutcome.discarded :=
  updateFunc_equal_rv_discards ⟨"foo", "kube-system", "5", true⟩
    ⟨"foo", "kube-system", "5", true⟩ rfl

/-- C3: in the Managed branch, `createOrUpdateResources` classifies failures:
a validation failure becomes a permanent error with reason `VerificationFailed`
wrapping the `unable to complete resource` message, and the generator apply step
is never invoked; when validation succeeds, the `storage.ErrStorageNotConfigured`
sentinel from apply becomes a permanent error with reason `StorageNotConfigured`;
any other non-nil apply error is returned unwrapped. -/
theorem createOrUpdateResources_classification
    (verify applyStep : Config → Option GoError) (cr : Config) :
    (∀ e, verify (withFinalizer cr) = some e →
      (createOrUpdateResources verify applyStep cr).2.2 =
        some (GoError.permanent "VerificationFailed"
          (GoError.generic ("unable to complete resource: " ++ errorMessage e))) ∧
      ∀ c, Event.applyCall c ∉ (createOrUpdateResources verify applyStep cr).1) ∧
    (verify (withFinalizer cr) = none →
      applyStep (withFinalizer cr) = some GoError.storageNotConfigured →
      (createOrUpdateResources verify applyStep cr).2.2 =
        some (GoError.permanent "StorageNotConfigured" GoError.storageNotConfigured)) ∧
    (∀ e, verify (withFinalizer cr) = none → applyStep (withFinalizer cr) = some e →
      e ≠ GoError.storageNotConfigured →
      (createOrUpdateResources verify applyStep cr).2.2 = some e) := by
  refine ⟨?_, ?_, ?_⟩
  · intro e hv
    simp [createOrUpdateResources, hv]
  · intro hv ha
    simp [createOrUpdateResources, hv, ha]
  · intro e hv ha hs
    simp [createOrUpdateResources, hv, ha, hs]

/-- Witness for C3 at concrete inputs: a failing validation yields the
`VerificationFailed` permanent error with no apply call, and a
storage-not-configured apply failure after successful validation yields the
`StorageNotConfigured` permanent error. -/
theorem createOrUpdateResources_classification_witness :
    ((createOrUpdateResources (fun _ => some (GoError.generic "bad")) (fun _ => none)
        (sampleConfig ManagementState.Managed none [] 1)).2.2 =
      some (GoError.permanent "VerificationFailed"
        (GoError.generic ("unable to complete resource: " ++ errorMessage (GoError.generic "bad")))) ∧
      ∀ c, Event.applyCall c ∉ (createOrUpdateResources (fun _ => some (GoError.generic "bad"))
        (fun _ => none) (sampleConfig ManagementState.Managed none [] 1)).1) ∧
    (createOrUpdateResources (fun _ => none) (fun _ => some GoError.storageNotConfigured)
        (sampleConfig ManagementState.Managed none [] 1)).2.2 =
      some (GoError.permanent "StorageNotConfigured" GoError.storageNotConfigured) :=
  ⟨(createOrUpdateResources_classification (fun _ => some (GoError.generic "bad"))
      (fun _ => none) (sampleConfig ManagementState.Managed none [] 1)).1
      (GoError.generic "bad") rfl,
    (createOrUpdateResources_classification (fun _ => none)
      (fun _ => some GoError.storageNotConfigured)
      (sampleConfig ManagementState.Managed none [] 1)).2.1 rfl rfl⟩

/-- C9: when the fetched object's deletion marker is set, the pass runs
finalization and ends immediately — the result is exactly the finalize call and
its error, so there is no management-state dispatch, no status computation and
no update or status-update call in the pass; any finalization failure is
returned as the pass result (it never reaches the permanent-failure swallow at
the end of sync), so the consumer requeues the sentinel key rate-limited. -/
theorem sync_deletion_branch (w : World) (cr0 : Config)
    (hget : w.getConfig = Except.ok cr0)
    (hdel : cr0.metadata.deletionTimestamp.isSome = true) :
    sync w = ⟨[Event.finalizeCall cr0], none, w.finalizeRes cr0⟩ ∧
    (∀ e, w.finalizeRes cr0 = some e →
      processOne (WorkItem.strItem workqueueKey) (sync w).err =
        [QueueOp.addRateLimited, QueueOp.done]) := by
  have h1 : sync w = ⟨[Event.finalizeCall cr0], none, w.finalizeRes cr0⟩ := by
    unfold sync
    rw [hget]
    simp [hdel]
  refine ⟨h1, ?_⟩
  intro e he
  rw [h1]
  simp [processOne, he]

/-- Witness for C9 at a concrete input: a deleting object whose finalization
fails (even with a permanent-shaped error) makes the pass return that failure
and the consumer requeue. -/
theorem sync_deletion_branch_witness :
    sync { idWorld (sampleConfig ManagementState.Managed (some 5) [] 1) with
        finalizeRes := fun _ => some (GoError.permanent "X" GoError.conflict) } =
      ⟨[Event.finalizeCall (sampleConfig ManagementState.Managed (some 5) [] 1)], none,
        some (GoError.permanent "X" GoError.conflict)⟩ ∧
    processOne (WorkItem.strItem workqueueKey)
      (sync { idWorld (sampleConfig ManagementState.Managed (some 5) [] 1) with
          finalizeRes := fun _ => some (GoError.permanent "X" GoError.conflict) }).err =
      [QueueOp.addRateLimited, QueueOp.done] := by
  have h := sync_deletion_branch
    { idWorld (sampleConfig ManagementState.Managed (some 5) [] 1) with
        finalizeRes := fun _ => some (GoError.permanent "X" GoError.conflict) }
    (sampleConfig ManagementState.Managed (some 5) [] 1) rfl rfl
  exact ⟨h.1, h.2 (GoError.permanent "X" GoError.conflict) rfl⟩

/-- C10: when the cache read of the dependent deployment fails with an error
that is not not-found, the pass aborts right there with the wrapped read error:
the trace stops at the deployment read, so the status computation and both
persistence calls never happen — in particular even a permanent apply failure
is not recorded into status — and the non-nil result triggers a rate-limited
requeue. -/
theorem sync_deploy_read_error_aborts (w : World) (cr0 : Config) (e : GoError)
    (hget : w.getConfig = Except.ok cr0)
    (hdel : cr0.metadata.deletionTimestamp = none)
    (hdep : w.getDeploy = Except.error e)
    (hnf : e.isNotFound = false) :
    sync w = ⟨(dispatch w cr0).1 ++ [Event.deployGetCall], none,
        some (GoError.generic
          ("failed to get \"image-registry\" deployment: " ++ errorMessage e))⟩ ∧
    (∀ c, Event.statusCompute c ∉ (sync w).trace) ∧
    (∀ c, Event.updateCall c ∉ (sync w).trace) ∧
    (∀ c, Event.updateStatusCall c ∉ (sync w).trace) ∧
    processOne (WorkItem.strItem workqueueKey) (sync w).err =
      [QueueOp.addRateLimited, QueueOp.done] := by
  have hdl : deployLookup w = Except.error (GoError.generic
      ("failed to get \"image-registry\" deployment: " ++ errorMessage e)) := by
    unfold deployLookup
    rw [hdep]
    simp [hnf]
  have h1 : sync w = ⟨(dispatch w cr0).1 ++ [Event.deployGetCall], none,
      some (GoError.generic
        ("failed to get \"image-registry\" deployment: " ++ errorMessage e))⟩ := by
    unfold sync
    rw [hget]
    simp [hdel, hdl]
  obtain ⟨hn1, hn2, hn3, _, _⟩ := dispatch_trace_free w cr0
  refine ⟨h1, ?_, ?_, ?_, ?_⟩
  · intro c
    rw [h1]
    simp [hn3 c]
  · intro c
    rw [h1]
    simp [hn1 c]
  · intro c
    rw [h1]
    simp [hn2 c]
  · rw [h1]
    rfl

/-- Witness for C10 at a concrete input: a failing (non-not-found) deployment
read in an Unmanaged pass aborts the pass with the wrapped error and requeues. -/
theorem sync_deploy_read_error_aborts_witness :
    sync { idWorld (sampleConfig ManagementState.Unmanaged none [] 1) with
        getDeploy := Except.error (GoError.generic "boom") } =
      ⟨[Event.deployGetCall], none,
        some (GoError.generic
          ("failed to get \"image-registry\" deployment: " ++
            errorMessage (GoError.generic "boom")))⟩ ∧
    processOne (WorkItem.strItem workqueueKey)
      (sync { idWorld (sampleConfig ManagementState.Unmanaged none [] 1) with
          getDeploy := Except.error (GoError.generic "boom") }).err =
      [QueueOp.addRateLimited, QueueOp.done] := by
  have h := sync_deploy_read_error_aborts
    { idWorld (sampleConfig ManagementState.Unmanaged none [] 1) with
        getDeploy := Except.error (GoError.generic "boom") }
    (sampleConfig ManagementState.Unmanaged none [] 1) (GoError.generic "boom") rfl rfl rfl rfl
  exact ⟨h.1, h.2.2.2.2⟩

/-- C1 counterexample: the claim says the finalizer is ensured on every
non-deleting pass regardless of the management state. In an Unmanaged pass the
code never calls `appendFinalizer` (it is only invoked inside
`createOrUpdateResources`, the Managed branch): this concrete non-deleting
Unmanaged pass completes with no update call at all and a final object whose
finalizer set still lacks the controller token. -/
theorem sync_unmanaged_finalizer_cex :
    sync (idWorld (sampleConfig ManagementState.Unmanaged none [] 1)) =
      ⟨[Event.deployGetCall,
          Event.statusCompute (sampleConfig ManagementState.Unmanaged none [] 1)],
        some (sampleConfig ManagementState.Unmanaged none [] 1), none⟩ ∧
    imageRegistryOperatorFinalizer ∉
      (sampleConfig ManagementState.Unmanaged none [] 1).metadata.finalizers := by
  constructor
  · rfl
  · simp [sampleConfig]

/-- C1 (amended): the finalizer is ensured only on Managed non-deleting passes:
there `appendFinalizer` runs at the top of `createOrUpdateResources`, so the
working copy carries the token through validation, apply and status
computation, and the only write that can carry it to the store is the
metadata/spec update of the pass — every whole-object update call and every
validation call in the trace sees the token present; no separate
finalizer-only write exists. -/
theorem sync_managed_finalizer_ensured (w : World) (cr0 : Config) (deploy : Option Deployment)
    (hget : w.getConfig = Except.ok cr0)
    (hdel : cr0.metadata.deletionTimestamp = none)
    (hms : cr0.spec.managementState = ManagementState.Managed)
    (hdep : deployLookup w = Except.ok deploy) :
    imageRegistryOperatorFinalizer ∈ (dispatch w cr0).2.1.metadata.finalizers ∧
    (∀ c, Event.updateCall c ∈ (sync w).trace →
      imageRegistryOperatorFinalizer ∈ c.metadata.finalizers) := by
  have hcfg : (dispatch w cr0).2.1 = withFinalizer cr0 := dispatch_cfg_managed w cr0 hms
  have hmem : imageRegistryOperatorFinalizer ∈ (dispatch w cr0).2.1.metadata.finalizers := by
    rw [hcfg]
    exact mem_appendFinalizer cr0.metadata
  refine ⟨hmem, ?_⟩
  intro c hc
  rw [sync_eq_syncTail w cr0 deploy hget hdel hdep, syncTail_eq] at hc
  rcases List.mem_append.mp hc with hc | hc
  · rcases List.mem_append.mp hc with hc | hc
    · exact absurd hc ((dispatch_trace_free w cr0).1 c)
    · simp at hc
  · have hc2 : c = cfgAfterStatus w cr0 deploy := updateCall_mem_specPersist w cr0 _ c hc
    rw [hc2]
    show imageRegistryOperatorFinalizer ∈ (dispatch w cr0).2.1.metadata.finalizers
    exact hmem

/-- Witness for C1 (amended) at a concrete input: a Managed pass over an object
without the finalizer; the dispatch-produced working copy carries the token and
the update call that persists it carries it too. -/
theorem sync_managed_finalizer_ensured_witness :
    imageRegistryOperatorFinalizer ∈
      (dispatch (idWorld (sampleConfig ManagementState.Managed none [] 1))
        (sampleConfig ManagementState.Managed none [] 1)).2.1.metadata.finalizers ∧
    (Event.updateCall (withFinalizer (sampleConfig ManagementState.Managed none [] 1)) ∈
        (sync (idWorld (sampleConfig ManagementState.Managed none [] 1))).trace →
      imageRegistryOperatorFinalizer ∈
        (withFinalizer (sampleConfig ManagementState.Managed none [] 1)).metadata.finalizers) := by
  have h := sync_managed_finalizer_ensured
    (idWorld (sampleConfig ManagementState.Managed none [] 1))
    (sampleConfig ManagementState.Managed none [] 1) none rfl rfl rfl rfl
  exact ⟨h.1, h.2 (withFinalizer (sampleConfig ManagementState.Managed none [] 1))⟩

/-- C4: when the apply/remove step of a non-deleting pass produced a permanent
failure and every subsequent step succeeds (the deployment read, the
conditional update, the status update), `sync` returns nil — the permanent
failure is swallowed at the end — so the consumer forgets the sentinel key and
no requeue occurs; and in general the consumer re-enqueues the sentinel key
rate-limited exactly when `sync` returns a non-nil error, and forgets it
(clearing pending backoff) when `sync` returns nil. -/
theorem sync_permanent_swallowed_requeue_policy (w : World) (cr0 : Config)
    (deploy : Option Deployment) (r : String) (pe : GoError)
    (hget : w.getConfig = Except.ok cr0)
    (hdel : cr0.metadata.deletionTimestamp = none)
    (hdep : deployLookup w = Except.ok deploy)
    (happ : (dispatch w cr0).2.2 = some (GoError.permanent r pe))
    (hupd : ∀ c, ∃ rv, w.updateRes c = Except.ok rv)
    (hst : ∀ c, w.updateStatusRes c = none) :
    (sync w).err = none ∧
    processOne (WorkItem.strItem workqueueKey) (sync w).err = [QueueOp.forget, QueueOp.done] ∧
    (∀ e, processOne (WorkItem.strItem workqueueKey) (some e) =
      [QueueOp.addRateLimited, QueueOp.done]) := by
  obtain ⟨c, hcomplete⟩ :=
    specPersist_completes w cr0 (cfgAfterStatus w cr0 deploy) hupd hst
  have herr : (sync w).err = none := by
    rw [sync_eq_syncTail w cr0 deploy hget hdel hdep, syncTail_eq]
    show (match (specPersist w cr0 (cfgAfterStatus w cr0 deploy)).2.2 with
      | none => (specPersist w cr0 (cfgAfterStatus w cr0 deploy)).2.1
      | some _ => swallowPermanent (dispatch w cr0).2.2) = none
    rw [hcomplete, happ]
    rfl
  exact ⟨herr, by rw [herr]; rfl, fun e => rfl⟩

/-- Witness for C4 at a concrete input: a Managed pass whose validation fails
(permanent `VerificationFailed`) while every later step succeeds returns nil
and the key is forgotten; a pass returning an error requeues. -/
theorem sync_permanent_swallowed_requeue_policy_witness :
    (sync { idWorld (sampleConfig ManagementState.Managed none [] 1) with
        verify := fun _ => some (GoError.generic "bad") }).err = none ∧
    processOne (WorkItem.strItem workqueueKey)
      (sync { idWorld (sampleConfig ManagementState.Managed none [] 1) with
          verify := fun _ => some (GoError.generic "bad") }).err =
      [QueueOp.forget, QueueOp.done] ∧
    processOne (WorkItem.strItem workqueueKey) (some GoError.conflict) =
      [QueueOp.addRateLimited, QueueOp.done] := by
  have h := sync_permanent_swallowed_requeue_policy
    { idWorld (sampleConfig ManagementState.Managed none [] 1) with
        verify := fun _ => some (GoError.generic "bad") }
    (sampleConfig ManagementState.Managed none [] 1) none
    "VerificationFailed" (GoError.generic "unable to complete resource: bad")
    rfl rfl rfl rfl (fun c => ⟨"43", rfl⟩) (fun c => rfl)
  exact ⟨h.1, h.2.1, h.2.2 GoError.conflict⟩

/-- C6: in a pass where the metadata/spec group differs from the pre-pass copy,
exactly one whole-object conditional update call is issued (the trace's update
calls are exactly one, carrying the full working object); if the call fails
with a conflict the error is returned to the caller without the error log, any
other failure is logged and returned; on success the fresh resource version
returned by the store replaces the working copy's version, so the status write
of the same pass carries it. -/
theorem sync_update_protocol (w : World) (cr0 : Config) (deploy : Option Deployment)
    (hget : w.getConfig = Except.ok cr0)
    (hdel : cr0.metadata.deletionTimestamp = none)
    (hdep : deployLookup w = Except.ok deploy)
    (hdiff : cr0.metadata ≠ (cfgAfterStatus w cr0 deploy).metadata ∨
      cr0.spec ≠ (cfgAfterStatus w cr0 deploy).spec) :
    (sync w).trace.filter isUpdateCallEv =
      [Event.updateCall (cfgAfterStatus w cr0 deploy)] ∧
    (∀ e, w.updateRes (cfgAfterStatus w cr0 deploy) = Except.error e →
      (sync w).err = some e ∧
      (e.isConflict = true → Event.logUpdateError ∉ (sync w).trace) ∧
      (e.isConflict = false → Event.logUpdateError ∈ (sync w).trace)) ∧
    (∀ rv, w.updateRes (cfgAfterStatus w cr0 deploy) = Except.ok rv →
      ∀ c, Event.updateStatusCall c ∈ (sync w).trace →
        c.metadata.resourceVersion = rv) := by
  have hb : (strategyMetadata cr0.metadata (cfgAfterStatus w cr0 deploy).metadata ||
      decide (cr0.spec ≠ (cfgAfterStatus w cr0 deploy).spec)) = true := by
    rcases hdiff with h | h <;> simp [strategyMetadata, h]
  have hsync := sync_eq_syncTail w cr0 deploy hget hdel hdep
  rcases specPersist_cases w cr0 (cfgAfterStatus w cr0 deploy) with
    ⟨hf, _⟩ | ⟨_, ⟨e0, he0, hs⟩ | ⟨rv0, hrv0, hs⟩⟩
  · rw [hb] at hf
    cases hf
  · -- the update call failed with e0
    refine ⟨?_, ?_, ?_⟩
    · rw [hsync, syncTail_eq]
      show ((dispatch w cr0).1 ++ _ ++ (specPersist w cr0 (cfgAfterStatus w cr0 deploy)).1).filter
        isUpdateCallEv = _
      rw [List.filter_append, List.filter_append, (dispatch_trace_free w cr0).2.2.2.2, hs]
      by_cases hc : e0.isConflict = true <;> simp [hc, isUpdateCallEv]
    · intro e he
      rw [he0] at he
      injection he with he
      subst he
      refine ⟨?_, ?_, ?_⟩
      · rw [hsync, syncTail_eq]
        show (match (specPersist w cr0 (cfgAfterStatus w cr0 deploy)).2.2 with
          | none => (specPersist w cr0 (cfgAfterStatus w cr0 deploy)).2.1
          | some _ => swallowPermanent (dispatch w cr0).2.2) = some e0
        rw [hs]
      · intro hc
        rw [hsync, syncTail_eq]
        intro hmem
        rcases List.mem_append.mp hmem with hm | hm
        · rcases List.mem_append.mp hm with hm | hm
          · exact (dispatch_trace_free w cr0).2.2.2.1 hm
          · simp at hm
        · rw [hs] at hm
          simp [hc] at hm
      · intro hc
        rw [hsync, syncTail_eq]
        refine List.mem_append.mpr (Or.inr ?_)
        rw [hs]
        simp [hc]
    · intro rv hrv
      rw [he0] at hrv
      cases hrv
  · -- the update call succeeded with rv0
    refine ⟨?_, ?_, ?_⟩
    · rw [hsync, syncTail_eq]
      show ((dispatch w cr0).1 ++ _ ++ (specPersist w cr0 (cfgAfterStatus w cr0 deploy)).1).filter
        isUpdateCallEv = _
      rw [List.filter_append, List.filter_append, (dispatch_trace_free w cr0).2.2.2.2, hs]
      simp [isUpdateCallEv, statusPersist_filter_update]
    · intro e he
      rw [hrv0] at he
      cases he
    · intro rv hrv c hmem
      rw [hrv0] at hrv
      injection hrv with hrv
      subst hrv
      rw [hsync, syncTail_eq] at hmem
      rcases List.mem_append.mp hmem with hm | hm
      · rcases List.mem_append.mp hm with hm | hm
        · exact absurd hm ((dispatch_trace_free w cr0).2.1 c)
        · simp at hm
      · rw [hs] at hm
        rcases List.mem_cons.mp hm with hm | hm
        · cases hm
        · have := updateStatusCall_mem_statusPersist w cr0 _ c hm
          rw [this]
          rfl

/-- Witness for C6 at a concrete input: a Managed pass that appends the
finalizer changes the metadata group, and the trace contains exactly one update
call, carrying the working object after status computation. -/
theorem sync_update_protocol_witness :
    (sync (idWorld (sampleConfig ManagementState.Managed none [] 1))).trace.filter
      isUpdateCallEv =
      [Event.updateCall (cfgAfterStatus (idWorld (sampleConfig ManagementState.Managed none [] 1))
        (sampleConfig ManagementState.Managed none [] 1) none)] := by
  have h := sync_update_protocol (idWorld (sampleConfig ManagementState.Managed none [] 1))
    (sampleConfig ManagementState.Managed none [] 1) none rfl rfl rfl
    (Or.inl (by decide))
  exact h.1

/-- C7: in a pass where, after status computation (including the
`observedGeneration` assignment), the working copy equals the pre-pass copy in
the metadata group, the spec group and the status group — structural equality —
`sync` issues neither the whole-object update call nor the status-update call;
a second pass with no intervening change therefore produces no writes. -/
theorem sync_no_diff_no_writes (w : World) (cr0 : Config) (deploy : Option Deployment)
    (hget : w.getConfig = Except.ok cr0)
    (hdel : cr0.metadata.deletionTimestamp = none)
    (hdep : deployLookup w = Except.ok deploy)
    (hmeta : cr0.metadata = (cfgAfterStatus w cr0 deploy).metadata)
    (hspec : cr0.spec = (cfgAfterStatus w cr0 deploy).spec)
    (hstat : cr0.status = (setObservedGeneration (cfgAfterStatus w cr0 deploy)).status) :
    (∀ c, Event.updateCall c ∉ (sync w).trace) ∧
    (∀ c, Event.updateStatusCall c ∉ (sync w).trace) := by
  have hb : (strategyMetadata cr0.metadata (cfgAfterStatus w cr0 deploy).metadata ||
      decide (cr0.spec ≠ (cfgAfterStatus w cr0 deploy).spec)) = false := by
    simp [strategyMetadata, hmeta, hspec]
  have hsp : specPersist w cr0 (cfgAfterStatus w cr0 deploy) =
      statusPersist w cr0 (cfgAfterStatus w cr0 deploy) := by
    rcases specPersist_cases w cr0 (cfgAfterStatus w cr0 deploy) with ⟨_, h⟩ | ⟨ht, _⟩
    · exact h
    · rw [hb] at ht
      cases ht
  have hse : statusPersist w cr0 (cfgAfterStatus w cr0 deploy) =
      ([], none, some (setObservedGeneration (cfgAfterStatus w cr0 deploy))) := by
    rcases statusPersist_cases w cr0 (cfgAfterStatus w cr0 deploy) with ⟨_, h⟩ | ⟨hne, _⟩
    · exact h
    · exact absurd hstat hne
  have htr : (sync w).trace = (dispatch w cr0).1 ++
      [Event.deployGetCall, Event.statusCompute (cfgAfterStatus w cr0 deploy)] := by
    rw [sync_eq_syncTail w cr0 deploy hget hdel hdep, syncTail_eq]
    show (dispatch w cr0).1 ++ _ ++ (specPersist w cr0 (cfgAfterStatus w cr0 deploy)).1 = _
    rw [hsp, hse]
    simp
  constructor <;> intro c <;> rw [htr] <;> intro hmem <;>
    rcases List.mem_append.mp hmem with hm | hm
  · exact (dispatch_trace_free w cr0).1 c hm
  · simp at hm
  · exact (dispatch_trace_free w cr0).2.1 c hm
  · simp at hm

/-- Witness for C7 at a concrete input: a Managed pass over an object that
already carries the finalizer and whose observed generation is current; nothing
differs after status computation, so neither write is issued. -/
theorem sync_no_diff_no_writes_witness :
    Event.updateCall (sampleConfig ManagementState.Managed none
        [imageRegistryOperatorFinalizer] 1) ∉
      (sync (idWorld (sampleConfig ManagementState.Managed none
        [imageRegistryOperatorFinalizer] 1))).trace ∧
    Event.updateStatusCall (sampleConfig ManagementState.Managed none
        [imageRegistryOperatorFinalizer] 1) ∉
      (sync (idWorld (sampleConfig ManagementState.Managed none
        [imageRegistryOperatorFinalizer] 1))).trace := by
  have h := sync_no_diff_no_writes
    (idWorld (sampleConfig ManagementState.Managed none [imageRegistryOperatorFinalizer] 1))
    (sampleConfig ManagementState.Managed none [imageRegistryOperatorFinalizer] 1) none
    rfl rfl rfl (by decide) (by decide) (by decide)
  exact ⟨h.1 _, h.2 _⟩

/-- C8: after every non-deleting pass that reaches the end of `sync` (the
bootstrap and deletion branches excluded by hypothesis) with a nil result, the
final working copy satisfies `status.observedGeneration = metadata.generation`,
and that status is persisted: either the status-update call of the pass carried
exactly this object, or the status group was already equal to the pre-pass
(cached, remote-synced) status, so the persisted status equals it as well. -/
theorem sync_observedGeneration_invariant (w : World) (cr0 : Config)
    (deploy : Option Deployment) (c : Config)
    (hget : w.getConfig = Except.ok cr0)
    (hdel : cr0.metadata.deletionTimestamp = none)
    (hdep : deployLookup w = Except.ok deploy)
    (herr : (sync w).err = none)
    (hfin : (sync w).finalCR = some c) :
    c.status.observedGeneration = c.metadata.generation ∧
    (Event.updateStatusCall c ∈ (sync w).trace ∨ cr0.status = c.status) := by
  rw [sync_eq_syncTail w cr0 deploy hget hdel hdep, syncTail_eq] at hfin ⊢
  have hf : (specPersist w cr0 (cfgAfterStatus w cr0 deploy)).2.2 = some c := hfin
  obtain ⟨h1, h2⟩ := specPersist_final w cr0 (cfgAfterStatus w cr0 deploy) c hf
  refine ⟨h1, ?_⟩
  rcases h2 with hm | hm
  · exact Or.inl (List.mem_append.mpr (Or.inr hm))
  · exact Or.inr hm

/-- Witness for C8 at a concrete input: a Managed pass over an object with a
stale observed generation ends with `observedGeneration = generation = 1` in
the final object, persisted by the status-update call of the pass. -/
theorem sync_observedGeneration_invariant_witness :
    (⟨⟨"cluster", "", none, [imageRegistryOperatorFinalizer], 1, "43", 0⟩,
        ⟨ManagementState.Managed, 0⟩, ⟨1, 0⟩⟩ : Config).status.observedGeneration =
      (⟨⟨"cluster", "", none, [imageRegistryOperatorFinalizer], 1, "43", 0⟩,
        ⟨ManagementState.Managed, 0⟩, ⟨1, 0⟩⟩ : Config).metadata.generation ∧
    (Event.updateStatusCall
        ⟨⟨"cluster", "", none, [imageRegistryOperatorFinalizer], 1, "43", 0⟩,
          ⟨ManagementState.Managed, 0⟩, ⟨1, 0⟩⟩ ∈
      (sync (idWorld (sampleConfig ManagementState.Managed none [] 0))).trace ∨
      (sampleConfig ManagementState.Managed none [] 0).status =
        (⟨⟨"cluster", "", none, [imageRegistryOperatorFinalizer], 1, "43", 0⟩,
          ⟨ManagementState.Managed, 0⟩, ⟨1, 0⟩⟩ : Config).status) :=
  sync_observedGeneration_invariant
    (idWorld (sampleConfig ManagementState.Managed none [] 0))
    (sampleConfig ManagementState.Managed none [] 0) none
    ⟨⟨"cluster", "", none, [imageRegistryOperatorFinalizer], 1, "43", 0⟩,
      ⟨ManagementState.Managed, 0⟩, ⟨1, 0⟩⟩
    rfl rfl rfl (by decide) (by decide)

end ImageRegistryOperator
